import Mathlib

/-!
Verification of the jobassist python-service scoring and optimization core.

Python strings are modelled as Lean `String` (a wrapper around `List Char`);
the helper functions below mirror the corresponding Python `str` methods
(`lower`, `strip`, `split`, the `in` substring test) on the character list.
Floats are modelled as exact rationals `ℚ`.
-/

/-- ASCII lowercasing of one character, as Python `str.lower` acts on ASCII:
`A`..`Z` (codes 65..90) map to codes 97..122, everything else unchanged. -/
def lowerChar (c : Char) : Char :=
  if 65 ≤ c.toNat ∧ c.toNat ≤ 90 then Char.ofNat (c.toNat + 32) else c

/-- Whitespace test used by Python `strip`/`split` (space, tab, CR, LF). -/
def isWS (c : Char) : Bool :=
  c.toNat = 32 || c.toNat = 9 || c.toNat = 13 || c.toNat = 10

/-- Python `str.strip()`: drop whitespace from both ends. -/
def stripL (l : List Char) : List Char :=
  ((l.dropWhile isWS).reverse.dropWhile isWS).reverse

/-- Python `s.lower()`. -/
def lowerStr (s : String) : String := ⟨s.data.map lowerChar⟩

/-- Python `s.strip()`. -/
def stripStr (s : String) : String := ⟨stripL s.data⟩

/-- Boolean test that `a` begins the list `b`. -/
def startsWithB : List Char → List Char → Bool
  | [], _ => true
  | _ :: _, [] => false
  | a :: as, b :: bs => a == b && startsWithB as bs

/-- Boolean test that `needle` occurs contiguously inside `hay`
(Python `needle in hay`). -/
def substrB (needle : List Char) : List Char → Bool
  | [] => needle.isEmpty
  | c :: rest => startsWithB needle (c :: rest) || substrB needle rest

/-- Propositional form of contiguous containment. -/
def SubstrP (a b : List Char) : Prop := ∃ u v, u ++ a ++ v = b

/-- Python `str.split()` with no argument: split on whitespace runs,
discarding empty pieces.  `cur` is the reversed current word. -/
def splitWs : List Char → List Char → List (List Char)
  | cur, [] => if cur.isEmpty then [] else [cur.reverse]
  | cur, c :: rest =>
    if isWS c then
      (if cur.isEmpty then splitWs [] rest else cur.reverse :: splitWs [] rest)
    else splitWs (c :: cur) rest

/-- Python `set(s.split())`: the set of whitespace-separated tokens. -/
def wordFinset (s : String) : Finset String :=
  ((splitWs [] s.data).map String.mk).toFinset

/-!
`SimilarityCalculator._deduplicate_skills` (job_analyzer.py, lines 802-904).
The Python loop keeps two pieces of state: `unique_skills` (kept skills, in
order) and `seen_lower` (their lowercase forms).  Both are modelled as lists;
`seen_lower` never holds duplicates, so `List.erase` models `set.discard`.
-/

/-- The CI/CD spelling variants special-cased in `_deduplicate_skills`. -/
def ciCdVariants : List String :=
  ["ci/cd", "ci-cd", "cicd", "continuous integration",
   "continuous deployment", "continuous delivery"]

/-- Outcome of the substring-containment loop of `_deduplicate_skills`:
skip the current skill, remove one existing skill, or fall through. -/
inductive ScanOutcome where
  | skipCurrent : ScanOutcome
  | removeHit (e : String) : ScanOutcome
  | noHit : ScanOutcome
deriving DecidableEq

/-- First loop of `_deduplicate_skills` (lines 832-845): for each existing
skill, skip the current skill if it is a proper substring of the existing
one, or mark the existing one for removal if it is a proper superstring;
`break` on the first hit. -/
def substrScan (sl : String) : List String → ScanOutcome
  | [] => .noHit
  | e :: rest =>
    if substrB sl.data (lowerStr e).data ∧ sl ≠ lowerStr e then .skipCurrent
    else if substrB (lowerStr e).data sl.data ∧ sl ≠ lowerStr e then .removeHit e
    else substrScan sl rest

/-- Second loop of `_deduplicate_skills` (lines 850-897): word-overlap and
special cases, iterating over a frozen copy of `unique_skills` while the
live list (and `seen_lower`) may shrink.  Returns the skip flag and the
updated `unique_skills`/`seen_lower`. -/
def overlapScan (sl : String) : List String → List String → List String →
    Bool × List String × List String
  | [], unique, seen => (false, unique, seen)
  | e :: rest, unique, seen =>
    let el := lowerStr e
    if sl ∈ ciCdVariants ∧ el ∈ ciCdVariants then (true, unique, seen)
    else if substrB "agile".data sl.data ∧ substrB "agile".data el.data then
      (if sl = "agile" then (false, unique.erase e, seen.erase el)
       else (true, unique, seen))
    else
      let wc := wordFinset sl
      let we := wordFinset el
      if wc ≠ ∅ ∧ we ≠ ∅ then
        if ((wc ∩ we).card : ℚ) / (min wc.card we.card : ℚ) > 0.7 then
          if sl.data.length ≤ el.data.length then (true, unique, seen)
          else overlapScan sl rest (unique.erase e) (seen.erase el)
        else overlapScan sl rest unique seen
      else overlapScan sl rest unique seen

/-- Body of the `for skill in cleaned_skills` loop of `_deduplicate_skills`:
state is `(unique_skills, seen_lower)`. -/
def dedupStep (st : List String × List String) (skill : String) :
    List String × List String :=
  let sl := lowerStr skill
  if sl ∈ st.2 then st
  else
    match substrScan sl st.1 with
    | .skipCurrent => st
    | .removeHit e =>
      let unique := st.1.erase e
      let seen := st.2.erase (lowerStr e)
      let r := overlapScan sl unique unique seen
      if r.1 then (r.2.1, r.2.2) else (r.2.1 ++ [skill], r.2.2 ++ [sl])
    | .noHit =>
      let r := overlapScan sl st.1 st.1 st.2
      if r.1 then (r.2.1, r.2.2) else (r.2.1 ++ [skill], r.2.2 ++ [sl])

/-- `SimilarityCalculator._deduplicate_skills`: strip every skill, drop
empty or single-character entries, then fold the deduplication step. -/
def deduplicate_skills (skills : List String) : List String :=
  let cleaned := (skills.map stripStr).filter (fun s => 1 < s.data.length)
  (cleaned.foldl dedupStep ([], [])).1

/-!
Rounding.  Python `round(x, 2)` rounds to two decimal places with ties
going to the even hundredth (banker's rounding). -/

/-- Round a rational to the nearest integer, ties to even. -/
def roundHE (q : ℚ) : ℤ :=
  if q - ⌊q⌋ < 1 / 2 then ⌊q⌋
  else if 1 / 2 < q - ⌊q⌋ then ⌊q⌋ + 1
  else if ⌊q⌋ % 2 = 0 then ⌊q⌋ else ⌊q⌋ + 1

/-- Python `round(q, 2)`. -/
def round2 (q : ℚ) : ℚ := (roundHE (q * 100) : ℚ) / 100

/-!
`SimilarityCalculator.calculate_skill_similarity` (job_analyzer.py,
lines 984-1028).  The raw skill lists are the outputs of
`ResumeParser.extract_skills_dynamically(resume_text)` and
`JobAnalyzer.extract_required_skills(job_text)`; both extractors are
deterministic pure functions of their text, so the function is modelled
over the two extracted lists. -/

/-- `calculate_skill_similarity`: 70/30 blend of required-skill match
fraction and Jaccard similarity of the deduplicated, case-folded sets. -/
def calculate_skill_similarity (resume_skills_raw job_skills_raw : List String) : ℚ :=
  if job_skills_raw = [] then 0
  else
    let resume_skills := deduplicate_skills resume_skills_raw
    let job_skills := deduplicate_skills job_skills_raw
    let resume_skills_set := (resume_skills.map lowerStr).toFinset
    let job_skills_set := (job_skills.map lowerStr).toFinset
    if job_skills_set = ∅ then 0
    else
      let intersection := (resume_skills_set ∩ job_skills_set).card
      let union := (resume_skills_set ∪ job_skills_set).card
      let job_match_percentage : ℚ :=
        if 0 < job_skills_set.card then (intersection : ℚ) / (job_skills_set.card : ℚ) * 100 else 0
      let jaccard_similarity : ℚ :=
        if 0 < union then (intersection : ℚ) / (union : ℚ) * 100 else 0
      min (job_match_percentage * 0.7 + jaccard_similarity * 0.3) 100

/-- Result dictionary of `SimilarityCalculator.calculate_similarity`
(job_analyzer.py, lines 964-979). -/
structure BasicResult where
  overall_score : ℚ
  skill_match_score : ℚ
  experience_match_score : ℚ
  keyword_match_score : ℚ
  matching_skills : List String
  missing_skills : List String
  total_job_skills : ℕ
  matched_skills_count : ℕ
  missing_skills_count : ℕ
  match_percentage : ℚ
deriving DecidableEq

/-- `SimilarityCalculator.calculate_similarity` (job_analyzer.py, lines
906-979), modelled over the extracted raw skill lists together with the
TF-IDF cosine similarity already scaled to 0-100 (`cosine100`) and the
keyword-overlap similarity, both deterministic functions of the texts.
The basic-mode overall score is the scaled cosine alone. -/
def calculate_similarity (resume_skills_raw job_skills_raw : List String)
    (cosine100 keyword_sim : ℚ) : BasicResult :=
  let resume_skills := deduplicate_skills resume_skills_raw
  let job_skills := deduplicate_skills job_skills_raw
  let resume_skills_lower := (resume_skills.map lowerStr).toFinset
  let matching := job_skills.filter (fun j => lowerStr j ∈ resume_skills_lower)
  let missing := job_skills.filter (fun j => lowerStr j ∉ resume_skills_lower)
  { overall_score := round2 cosine100
    skill_match_score := round2 (calculate_skill_similarity resume_skills_raw job_skills_raw)
    experience_match_score := round2 (cosine100 * 0.8)
    keyword_match_score := round2 keyword_sim
    matching_skills := matching
    missing_skills := missing
    total_job_skills := job_skills.length
    matched_skills_count := matching.length
    missing_skills_count := missing.length
    match_percentage :=
      round2 (if job_skills ≠ [] then (matching.length : ℚ) / (job_skills.length : ℚ) * 100 else 0) }

/-!
`EnhancedSimilarityAnalyzer.calculate_enhanced_similarity` and
`_fallback_similarity` (indices/similarity_analyzer.py, lines 26-92 and
870-901).  The four component scores of the enhanced path and the
exception behaviour of the collaborators are modelled as parameters:
`components` is the outcome of the whole `try` block's component
computation (`Except.error` models a raised exception), and `basic` is
the outcome of the basic `SimilarityCalculator` call performed inside
`_fallback_similarity`'s own `try` block. -/

/-- Component scores computed inside the enhanced path. -/
structure EnhComponents where
  semantic : ℚ
  skill : ℚ
  experience : ℚ
  education : ℚ
deriving DecidableEq

/-- Observable shape of the dictionary returned by the enhanced analyzer;
`method`/`error` are `none` when the corresponding key is absent. -/
structure EnhResult where
  success : Bool
  overall_score : ℚ
  method : Option String
  error : Option String
  skill_score : Option ℚ
  experience_score : Option ℚ
deriving DecidableEq

/-- `_fallback_similarity`: on success of the basic calculator, a result
tagged `"basic_tfidf"`; if the basic calculator raises, a result with
`success = False`, `overall_score = 0` and no `method` key. -/
def fallback_similarity (basic : Except String BasicResult) : EnhResult :=
  match basic with
  | .ok b =>
    { success := true, overall_score := b.overall_score
      method := some "basic_tfidf", error := none
      skill_score := some b.skill_match_score
      experience_score := some b.experience_match_score }
  | .error e =>
    { success := false, overall_score := 0, method := none, error := some e
      skill_score := none, experience_score := none }

/-- `calculate_enhanced_similarity`: fall back when no AI service is
available or when anything in the enhanced path raises; otherwise return
the weighted blend 0.3/0.35/0.25/0.10 tagged `"ai_semantic"`. -/
def calculate_enhanced_similarity (aiAvailable : Bool)
    (components : Except String EnhComponents)
    (basic : Except String BasicResult) : EnhResult :=
  if aiAvailable = false then fallback_similarity basic
  else
    match components with
    | .error _ => fallback_similarity basic
    | .ok c =>
      let weighted_score :=
        c.semantic * 0.3 + c.skill * 0.35 + c.experience * 0.25 + c.education * 0.10
      { success := true, overall_score := round2 weighted_score
        method := some "ai_semantic", error := none
        skill_score := some c.skill, experience_score := some c.experience }

/-!
`AgenticResumeOptimizer.optimize_resume` (agentic_optimizer.py, lines
34-196).  The similarity calculator is deterministic in the resume text
(the job text is fixed for a run), so it is modelled as `score : String → ℚ`.
Strategy selection (`_reason_and_plan`) and the generation collaborator
(`_apply_strategy`) are modelled as oracle functions; `applyStrategy`
returning `none` models a failed or too-short generation. -/

/-- One record of `attempt_history`. -/
structure OptAttempt where
  iteration : ℕ
  strategy : String
  previous_score : ℚ
  new_score : ℚ
  improvement : ℚ
deriving DecidableEq

/-- Mutable loop state of one optimization run. -/
structure OptState where
  current_resume : String
  current_score : ℚ
  iteration : ℕ
  attempt_history : List OptAttempt
  successful_strategies : List String
  failed_strategies : List String
deriving DecidableEq

/-- External collaborators of the optimizer loop. -/
structure OptEnv where
  score : String → ℚ
  chooseStrategy : ℕ → String → ℚ → String
  applyStrategy : String → String → Option String

/-- One iteration of the agentic loop (lines 86-168): choose a strategy,
apply it, record the attempt, then accept when `improvement > -1`
(marking the strategy successful exactly when `improvement > 0`) and
reject otherwise. -/
def optStep (env : OptEnv) (st : OptState) : OptState :=
  let it := st.iteration + 1
  let strat := env.chooseStrategy it st.current_resume st.current_score
  match env.applyStrategy st.current_resume strat with
  | none =>
    { st with iteration := it, failed_strategies := st.failed_strategies ++ [strat] }
  | some improved =>
    let new_score := env.score improved
    let improvement := new_score - st.current_score
    let st1 : OptState :=
      { st with iteration := it
                attempt_history :=
                  st.attempt_history ++ [⟨it, strat, st.current_score, new_score, improvement⟩] }
    if improvement > -1 then
      let st2 := { st1 with current_resume := improved, current_score := new_score }
      if improvement > 0 then
        { st2 with successful_strategies := st2.successful_strategies ++ [strat] }
      else st2
    else
      { st1 with failed_strategies := st1.failed_strategies ++ [strat] }

/-- The `while iteration < max_iterations and current_score < target` loop.
Fuel is consumed once per iteration; `optimize_resume` supplies
`max_iterations` fuel, which is exact since `iteration` starts at 0 and
increases by one per step. -/
def optLoop (env : OptEnv) (max_iterations : ℕ) (target_score : ℚ) :
    ℕ → OptState → OptState
  | 0, st => st
  | fuel + 1, st =>
    if st.iteration < max_iterations ∧ st.current_score < target_score then
      optLoop env max_iterations target_score fuel (optStep env st)
    else st

/-- Result dictionary of `optimize_resume`. -/
structure OptResult where
  optimized_resume : String
  final_score : ℚ
  original_score : ℚ
  iterations : ℕ
  attempt_history : List OptAttempt
  successful_strategies : List String
  failed_strategies : List String
  target_reached : Bool
deriving DecidableEq

/-- `optimize_resume` (lines 34-196): early exit with zero iterations when
the original score already meets the target, else run the agentic loop. -/
def optimize_resume (env : OptEnv) (max_iterations : ℕ) (target_score : ℚ)
    (resume_text : String) : OptResult :=
  let original_score := env.score resume_text
  if original_score ≥ target_score then
    { optimized_resume := resume_text, final_score := original_score
      original_score := original_score, iterations := 0, attempt_history := []
      successful_strategies := [], failed_strategies := [], target_reached := true }
  else
    let st := optLoop env max_iterations target_score max_iterations
      ⟨resume_text, original_score, 0, [], [], []⟩
    { optimized_resume := st.current_resume, final_score := st.current_score
      original_score := original_score, iterations := st.iteration
      attempt_history := st.attempt_history
      successful_strategies := st.successful_strategies
      failed_strategies := st.failed_strategies
      target_reached := decide (st.current_score ≥ target_score) }

/-!
`JobAnalyzer.validate_is_job_description` (job_analyzer.py, lines 36-146)
and `JobAnalyzer.analyze_job_description` (lines 775-796). -/

/-- Job-posting indicator vocabulary (lines 50-64). -/
def job_indicators : List String :=
  ["responsibilities", "requirements", "qualifications", "job description",
   "role", "position", "duties", "hiring", "seeking", "looking for",
   "we are", "join our team", "apply", "salary", "compensation",
   "benefits", "work environment", "company culture", "reports to",
   "years of experience", "experience required", "preferred qualifications",
   "nice to have", "must have", "job type", "employment type",
   "full time", "part time", "contract", "remote", "on-site", "hybrid",
   "application deadline", "about the company", "about us", "our mission",
   "key responsibilities", "what you will do", "vacancy", "job opening",
   "employment", "career opportunity", "teaching", "instructor", "professor",
   "internship", "intern", "applicants", "candidates", "opportunity",
   "department", "organization", "brief description", "detailed description",
   "eligibility", "criteria", "why join", "skills", "gain experience"]

/-- Resume indicator vocabulary (lines 77-85). -/
def resume_indicators : List String :=
  ["curriculum vitae", "my objective:", "my career objective",
   "my professional summary:", "my work history:", "my employment history:",
   "personal information:", "date of birth:", "nationality:", "marital status:",
   "references available upon request",
   "linkedin.com/in/", "github.com/",
   "i have worked at", "i am a", "my experience includes", "my skills include",
   "personal statement:", "about me:"]

/-- Excluded document-type keywords (lines 100-107). -/
def exclude_keywords : List String :=
  ["official grade report for", "official mark sheet for", "official academic record for",
   "official certificate of completion for",
   "invoice number:", "receipt number:", "bill number:", "official bank statement",
   "official financial statement for", "payment confirmation for",
   "official medical report for", "official lab report for", "prescription for patient:",
   "legal document number:", "contract agreement between"]

/-- Transcript-document phrases (lines 113-116). -/
def transcript_phrases : List String :=
  ["this is my transcript", "official transcript for student:", "grade transcript for:",
   "academic transcript document for student:"]

/-- Number of phrases of `phrases` occurring in the lowercased text. -/
def countHits (phrases : List String) (tl : String) : ℕ :=
  (phrases.filter (fun p => substrB p.data tl.data)).length

/-- `validate_is_job_description`: `none` when the text passes all checks,
`some errorMessage` otherwise. -/
def validate_is_job_description (text : String) : Option String :=
  if text.data = [] ∨ (stripL text.data).length < 100 then
    some "Job description is too short. Please provide a complete job posting."
  else
    let tl := lowerStr text
    if countHits job_indicators tl < 1 then
      some "This does not appear to be a job description. Please upload a valid job posting."
    else if 6 ≤ countHits resume_indicators tl then
      some "This appears to be a resume, not a job description. Please upload a job posting."
    else
      let exclude_count :=
        if transcript_phrases.any (fun p => substrB p.data tl.data) then
          countHits exclude_keywords tl + 1
        else countHits exclude_keywords tl
      if 3 ≤ exclude_count then
        some "This does not appear to be a job description. Please upload a valid job posting."
      else
        let numeric_chars := (text.data.filter Char.isDigit).length
        let total_chars := (text.data.filter (fun c => c ≠ ' ' ∧ c ≠ '\n')).length
        if 0 < total_chars ∧ ((numeric_chars : ℚ) / (total_chars : ℚ) > 0.5) then
          some "Document contains too many numbers. Please upload a job description, not a transcript or statement."
        else none

/-- Structured fields produced by the pure per-field extractors of
`JobAnalyzer` (`extract_required_skills`, `extract_experience_level`,
`extract_job_title`, `extract_company_name`, `extract_responsibilities`,
`extract_qualifications`), all deterministic total functions of the text,
modelled as a parameter. -/
structure JobExtraction where
  required_skills : List String
  experience_level : String
  job_title : String
  company : String
  key_responsibilities : List String
  qualifications : List String
deriving DecidableEq

/-- The analysis dictionary returned by `analyze_job_description`. -/
structure JobAnalysis where
  required_skills : List String
  experience_level : String
  job_title : String
  company : String
  key_responsibilities : List String
  qualifications : List String
  description : String
deriving DecidableEq

/-- `analyze_job_description`: validation failure raises (the `ValueError`
is re-wrapped by the function's own `except` into
`"Job analysis failed: ..."`); on success the analysis dictionary is
returned with the description truncated to 500 characters. -/
def analyze_job_description (extraction : JobExtraction) (job_text : String) :
    Except String JobAnalysis :=
  match validate_is_job_description job_text with
  | some err => .error ("Job analysis failed: " ++ err)
  | none =>
    .ok { required_skills := extraction.required_skills
          experience_level := extraction.experience_level
          job_title := extraction.job_title
          company := extraction.company
          key_responsibilities := extraction.key_responsibilities
          qualifications := extraction.qualifications
          description :=
            if 500 < job_text.data.length then ⟨job_text.data.take 500⟩ ++ "..."
            else job_text }

/-!
`EnhancedSimilarityAnalyzer._calculate_skill_match`
(indices/similarity_analyzer.py, lines 118-244).  In the source, the
resume-skill deduplication loop body (`for seen in resume_normalized: ...`)
and the final `if not is_duplicate: append` are dedented out of the
`for skill in resume_skills_raw` loop: the per-skill loop only strips each
valid entry into `skill_clean`/`skill_lower` and resets `is_duplicate`,
so after it finishes those variables hold the values from the *last* valid
entry, the dedup loop runs once over the still-empty `resume_normalized`,
and exactly that last entry is appended.  With no valid entry at all the
trailing code reads the never-assigned `is_duplicate`/`skill_clean`
(a `NameError`, swallowed by the surrounding `except`), modelled as
`none`. -/

/-- Final values of `(skill_clean, skill_lower)` after the dedented resume
loop; `none` models the `NameError` when no entry is valid. -/
def lastValidState (raw : List String) : Option (String × String) :=
  raw.foldl
    (fun acc s =>
      if 2 ≤ (stripL s.data).length then some (stripStr s, lowerStr (stripStr s))
      else acc)
    none

/-- The `(resume_skills_dedup, resume_normalized)` pair actually produced
by lines 127-161: a single-entry list holding the last valid raw skill. -/
def resumeDedupBuggy (raw : List String) : Option (List String × List String) :=
  match lastValidState raw with
  | none => none
  | some (clean, lower) => some ([clean], [lower])

/-- CI/CD variant set of `_calculate_skill_match` (lines 145/181). -/
def cicd_terms : List String :=
  ["ci/cd", "ci-cd", "cicd", "continuous integration", "continuous deployment"]

/-- Duplicate test of the (correctly indented) required-skill loop
(lines 175-192): substring match, CI/CD variants, or word overlap above
0.7 measured against the larger token set. -/
def requiredDupScan (sl : String) : List String → Bool
  | [] => false
  | seen :: rest =>
    if sl = seen ∨ substrB sl.data seen.data ∨ substrB seen.data sl.data then true
    else if sl ∈ cicd_terms ∧ seen ∈ cicd_terms then true
    else
      let skill_words := wordFinset sl
      let seen_words := wordFinset seen
      if skill_words ≠ ∅ ∧ seen_words ≠ ∅ then
        if ((skill_words ∩ seen_words).card : ℚ) /
            (max skill_words.card seen_words.card : ℚ) > 0.7 then true
        else requiredDupScan sl rest
      else requiredDupScan sl rest

/-- Required-skill deduplication loop (lines 164-196). -/
def requiredDedup (raw : List String) : List String × List String :=
  raw.foldl
    (fun st s =>
      if 2 ≤ (stripL s.data).length then
        if requiredDupScan (lowerStr (stripStr s)) st.2 then st
        else (st.1 ++ [stripStr s], st.2 ++ [lowerStr (stripStr s)])
      else st)
    ([], [])

/-- Result dictionary of `_calculate_skill_match` (output lists kept as
finsets; the source sorts them for display only). -/
structure SkillMatchResult where
  score : ℚ
  matched : Finset String
  direct_matches : Finset String
  semantic_matches : Finset String
  missing : Finset String
  total_required : ℕ
deriving DecidableEq

/-- `_calculate_skill_match`, with `_find_semantic_skill_matches` (an
embedding-collaborator call) as oracle parameter.  The `none` branch of
the buggy resume dedup models the `NameError` caught by the function's
`except`, which returns the zero-score dictionary. -/
def calculate_skill_match
    (semOracle : Finset String → Finset String → Finset String)
    (resume_skills_raw required_skills_raw : List String) : SkillMatchResult :=
  match resumeDedupBuggy resume_skills_raw with
  | none =>
    { score := 0, matched := ∅, direct_matches := ∅, semantic_matches := ∅
      missing := ∅, total_required := 0 }
  | some (_, resume_normalized) =>
    let resume_skills := resume_normalized.toFinset
    let required_skills := (requiredDedup required_skills_raw).2.toFinset
    if required_skills = ∅ then
      { score := 0, matched := ∅, direct_matches := ∅, semantic_matches := ∅
        missing := ∅, total_required := 0 }
    else
      let direct_matches := required_skills.filter
        (fun req => ∃ res ∈ resume_skills,
          req = res ∨ substrB req.data res.data ∨ substrB res.data req.data)
      let remaining_resume := resume_skills \ resume_skills.filter
        (fun s => ∃ m ∈ direct_matches, substrB s.data m.data ∨ substrB m.data s.data)
      let remaining_required := required_skills \ direct_matches
      let semantic_matches := semOracle remaining_resume remaining_required
      let all_matches := direct_matches ∪ semantic_matches
      { score := min ((direct_matches.card : ℚ) / (required_skills.card : ℚ) * 100 +
                      (semantic_matches.card : ℚ) / (required_skills.card : ℚ) * 50) 100
        matched := all_matches
        direct_matches := direct_matches
        semantic_matches := semantic_matches
        missing := required_skills \ all_matches
        total_required := required_skills.card }

/-!
Remaining definitions: spec-side abbreviations and concrete fixtures used
by witnesses. -/

/-- Deduplicated, case-folded skill set of a raw extracted list, as used
inside `calculate_skill_similarity`. -/
def dedupSet (raw : List String) : Finset String :=
  ((deduplicate_skills raw).map lowerStr).toFinset

/-- Accept/reject contract of one optimizer iteration whose generation
step produced `improved` (spec wording of §4.6 step 4). -/
def AcceptRejectSpec (env : OptEnv) (st : OptState) (improved : String) : Prop :=
  let strat := env.chooseStrategy (st.iteration + 1) st.current_resume st.current_score
  let delta := env.score improved - st.current_score
  (delta > -1 →
    (optStep env st).current_resume = improved ∧
    (optStep env st).current_score = env.score improved ∧
    (optStep env st).successful_strategies =
      st.successful_strategies ++ (if delta > 0 then [strat] else []) ∧
    (optStep env st).failed_strategies = st.failed_strategies) ∧
  (delta ≤ -1 →
    (optStep env st).current_resume = st.current_resume ∧
    (optStep env st).current_score = st.current_score ∧
    (optStep env st).successful_strategies = st.successful_strategies ∧
    (optStep env st).failed_strategies = st.failed_strategies ++ [strat])

/-- Collaborator fixture: generation always returns the same improved text,
which scores 60 against the fixed job while everything else scores 50. -/
def envAccept : OptEnv :=
  { score := fun s => if s = "resume with keywords added" then 60 else 50
    chooseStrategy := fun _ _ _ => "keyword_optimization"
    applyStrategy := fun _ _ => some "resume with keywords added" }

/-- Loop state at the start of a run that scored 50. -/
def stStart : OptState := ⟨"original resume", 50, 0, [], [], []⟩

/-- Collaborator fixture whose similarity score is always 90. -/
def envHigh : OptEnv := ⟨fun _ => 90, fun _ _ _ => "none", fun _ _ => none⟩

/-- Concrete basic-calculator result fixture. -/
def basicFix : BasicResult := ⟨50, 45, 40, 30, [], [], 2, 1, 1, 50⟩

/-- Concrete extraction fixture for the job analyzer. -/
def extractionFix : JobExtraction := ⟨["python"], "Senior", "Engineer", "Acme", [], []⟩

/-!
Helper lemmas. -/

/-- Rounding an integer-valued rational is the identity. -/
theorem round2_int (n : ℤ) : round2 (n : ℚ) = (n : ℚ) := by
  have h : ((n : ℚ) * 100) = ((n * 100 : ℤ) : ℚ) := by push_cast; ring
  have hf : ⌊(n : ℚ) * 100⌋ = n * 100 := by rw [h, Int.floor_intCast]
  have hd : (n : ℚ) * 100 - ((n * 100 : ℤ) : ℚ) = 0 := by push_cast; ring
  simp only [round2, roundHE, hf, hd]
  rw [if_pos (by norm_num)]
  push_cast
  ring

/-- Every branch of `optStep` advances `iteration` by exactly one. -/
theorem optStep_iteration (env : OptEnv) (st : OptState) :
    (optStep env st).iteration = st.iteration + 1 := by
  simp only [optStep]
  split
  · rfl
  · split_ifs <;> rfl

/-- The loop guard keeps `iteration` at or below `max_iterations`. -/
theorem optLoop_iteration_le (env : OptEnv) (max_iterations : ℕ) (target_score : ℚ) :
    ∀ (fuel : ℕ) (st : OptState), st.iteration ≤ max_iterations →
      (optLoop env max_iterations target_score fuel st).iteration ≤ max_iterations := by
  intro fuel
  induction fuel with
  | zero => intro st h; exact h
  | succ n ih =>
    intro st h
    unfold optLoop
    split
    · rename_i hcond
      exact ih _ (by rw [optStep_iteration]; omega)
    · exact h

/-- `List.foldl` of a keep-last-matching update equals the last filtered
element (if any). -/
theorem foldl_last {α β : Type} (p : α → Prop) [DecidablePred p] (f : α → β) :
    ∀ (raw : List α) (init : Option β),
      raw.foldl (fun acc s => if p s then some (f s) else acc) init =
        ((raw.filter (fun s => decide (p s))).getLast?).elim init (fun x => some (f x)) := by
  intro raw
  induction raw with
  | nil => intro init; rfl
  | cons s t ih =>
    intro init
    by_cases hp : p s
    · rw [List.foldl_cons, if_pos hp, List.filter_cons, if_pos (by simpa using hp), ih]
      cases hlast : (t.filter (fun s => decide (p s))).getLast? with
      | none =>
        have : t.filter (fun s => decide (p s)) = [] := by
          simpa using List.getLast?_eq_none_iff.mp hlast
        rw [this]
        rfl
      | some x =>
        cases hf : t.filter (fun s => decide (p s)) with
        | nil => rw [hf] at hlast; simp at hlast
        | cons y ys =>
          rw [hf] at hlast
          rw [List.getLast?_cons_cons, hlast]
          rfl
    · rw [List.foldl_cons, if_neg hp, List.filter_cons, if_neg (by simpa using hp), ih]

/-- `startsWithB` decides list-prefix. -/
theorem startsWithB_iff : ∀ (a b : List Char), startsWithB a b = true ↔ ∃ t, a ++ t = b
  | [], b => by simp [startsWithB]
  | x :: xs, [] => by simp [startsWithB]
  | x :: xs, y :: ys => by
    simp only [startsWithB, Bool.and_eq_true, beq_iff_eq, startsWithB_iff xs ys]
    constructor
    · rintro ⟨rfl, t, rfl⟩
      exact ⟨t, rfl⟩
    · rintro ⟨t, h⟩
      injection h with h1 h2
      exact ⟨h1, t, h2⟩

/-- `substrB` decides contiguous containment. -/
theorem substrB_iff : ∀ (a b : List Char), substrB a b = true ↔ SubstrP a b
  | a, [] => by
    simp [substrB, SubstrP, List.isEmpty_iff, List.append_eq_nil]
  | a, c :: t => by
    simp only [substrB, Bool.or_eq_true, startsWithB_iff, substrB_iff a t]
    constructor
    · rintro (⟨s, hs⟩ | ⟨u, v, rfl⟩)
      · exact ⟨[], s, by simpa using hs⟩
      · exact ⟨c :: u, v, rfl⟩
    · rintro ⟨u, v, huv⟩
      cases u with
      | nil => exact Or.inl ⟨v, by simpa using huv⟩
      | cons x xs =>
        injection huv with h1 h2
        exact Or.inr ⟨xs, v, h2⟩

/-- Containment is reflexive. -/
theorem SubstrP_rfl (a : List Char) : SubstrP a a := ⟨[], [], by simp⟩

/-- Containment cannot grow length. -/
theorem SubstrP.length_le {a b : List Char} (h : SubstrP a b) : a.length ≤ b.length := by
  obtain ⟨u, v, rfl⟩ := h
  simp [List.length_append]
  omega

/-- Containment with no smaller length forces equality. -/
theorem SubstrP.eq_of_length {a b : List Char} (h : SubstrP a b)
    (hl : b.length ≤ a.length) : a = b := by
  obtain ⟨u, v, rfl⟩ := h
  simp only [List.length_append] at hl
  have hu : u = [] := List.length_eq_zero.mp (by omega)
  have hv : v = [] := List.length_eq_zero.mp (by omega)
  subst hu
  subst hv
  simp

/-- Containment is transitive. -/
theorem SubstrP.trans {a b c : List Char} (h1 : SubstrP a b) (h2 : SubstrP b c) :
    SubstrP a c := by
  obtain ⟨u, v, rfl⟩ := h1
  obtain ⟨x, y, rfl⟩ := h2
  exact ⟨x ++ u, v ++ y, by simp⟩

/-- Containment is preserved by mapping. -/
theorem SubstrP.map (f : Char → Char) {a b : List Char} (h : SubstrP a b) :
    SubstrP (a.map f) (b.map f) := by
  obtain ⟨u, v, rfl⟩ := h
  exact ⟨u.map f, v.map f, by simp⟩

/-- Strings with equal character data are equal. -/
theorem string_data_eq {s t : String} (h : s.data = t.data) : s = t := by
  cases s
  cases t
  subst h
  rfl

/-- Dropping a prefix stops no later than a failing element after an
appended front. -/
theorem dropWhile_append_cons (p : Char → Bool) (u : List Char) (c : Char)
    (t : List Char) (hc : p c = false) :
    (u ++ c :: t).dropWhile p = u.dropWhile p ++ c :: t := by
  induction u with
  | nil => simp [List.dropWhile_cons, hc]
  | cons a u ih =>
    by_cases pa : p a = true
    · simp [List.dropWhile_cons, pa, ih]
    · simp [List.dropWhile_cons, pa]

/-- `dropWhile` yields nil or starts with a failing element. -/
theorem dropWhile_shape (p : Char → Bool) (l : List Char) :
    l.dropWhile p = [] ∨ ∃ c t, l.dropWhile p = c :: t ∧ p c = false := by
  induction l with
  | nil => exact Or.inl rfl
  | cons a l ih =>
    cases hpa : p a
    · exact Or.inr ⟨a, l, by simp [List.dropWhile_cons, hpa], hpa⟩
    · simpa [List.dropWhile_cons, hpa] using ih

/-- `dropWhile` removes an initial segment. -/
theorem dropWhile_suffixP (p : Char → Bool) (l : List Char) :
    ∃ pre, pre ++ l.dropWhile p = l := by
  induction l with
  | nil => exact ⟨[], rfl⟩
  | cons a l ih =>
    cases hpa : p a
    · exact ⟨[], by simp [List.dropWhile_cons, hpa]⟩
    · obtain ⟨pre, hpre⟩ := ih
      exact ⟨a :: pre, by simp [List.dropWhile_cons, hpa, hpre]⟩

/-- The stripped list is contained in the original. -/
theorem stripL_substrP (x : List Char) : SubstrP (stripL x) x := by
  obtain ⟨pre1, h1⟩ := dropWhile_suffixP isWS x
  obtain ⟨pre2, h2⟩ := dropWhile_suffixP isWS (x.dropWhile isWS).reverse
  refine ⟨pre1, pre2.reverse, ?_⟩
  have hd : stripL x ++ pre2.reverse = x.dropWhile isWS := by
    unfold stripL
    rw [← List.reverse_append, h2, List.reverse_reverse]
  rw [List.append_assoc, hd]
  exact h1

/-- A nonempty stripped list starts and ends with non-whitespace. -/
theorem stripL_shape (x : List Char) :
    stripL x = [] ∨
    ((∃ c t, stripL x = c :: t ∧ isWS c = false) ∧
     (∃ i d, stripL x = i ++ [d] ∧ isWS d = false)) := by
  rcases dropWhile_shape isWS (x.dropWhile isWS).reverse with he | ⟨c, t, he, hc⟩
  · left
    unfold stripL
    rw [he]
    rfl
  · right
    obtain ⟨pre2, h2⟩ := dropWhile_suffixP isWS (x.dropWhile isWS).reverse
    have hstrip2 : stripL x = t.reverse ++ [c] := by
      unfold stripL
      rw [he, List.reverse_cons]
    have hdd : stripL x ++ pre2.reverse = x.dropWhile isWS := by
      unfold stripL
      rw [← List.reverse_append, h2, List.reverse_reverse]
    refine ⟨?_, ⟨t.reverse, c, hstrip2, hc⟩⟩
    rcases dropWhile_shape isWS x with hnil | ⟨c0, t0, hdx, hc0⟩
    · exfalso
      rw [hnil] at he
      simp at he
    · rw [hdx] at hdd
      cases hsx : stripL x with
      | nil =>
        exfalso
        rw [hsx] at hstrip2
        simp at hstrip2
      | cons z zs =>
        rw [hsx, List.cons_append] at hdd
        injection hdd with hz _
        exact ⟨z, zs, rfl, by rw [hz]; exact hc0⟩

/-- Lowercasing does not change whitespace status. -/
theorem isWS_lowerChar (c : Char) : isWS (lowerChar c) = isWS c := by
  unfold lowerChar
  split
  · rename_i h
    have hv : (Char.ofNat (c.toNat + 32)).toNat = c.toNat + 32 := by
      unfold Char.ofNat
      rw [dif_pos (Or.inl (by omega))]
      rfl
    have hA : isWS (Char.ofNat (c.toNat + 32)) = false := by
      simp only [isWS, hv, Bool.or_eq_false_iff, decide_eq_false_iff_not]
      omega
    have hB : isWS c = false := by
      simp only [isWS, Bool.or_eq_false_iff, decide_eq_false_iff_not]
      omega
    rw [hA, hB]
  · rfl

/-- Stripping commutes with lowercasing. -/
theorem stripL_map_lower (l : List Char) :
    stripL (l.map lowerChar) = (stripL l).map lowerChar := by
  have hws : (isWS ∘ lowerChar) = isWS := funext fun c => isWS_lowerChar c
  unfold stripL
  rw [List.dropWhile_map, hws, ← List.map_reverse, List.dropWhile_map, hws, ← List.map_reverse]

/-- Containment is preserved by stripping both sides. -/
theorem substrP_stripL {a b : List Char} (h : SubstrP a b) :
    SubstrP (stripL a) (stripL b) := by
  rcases stripL_shape a with hnil | ⟨⟨c, t, hct, hc⟩, ⟨i, d, hid, hd⟩⟩
  · rw [hnil]
    exact ⟨[], stripL b, by simp⟩
  · have h2 : SubstrP (stripL a) b := (stripL_substrP a).trans h
    obtain ⟨u, v, huv⟩ := h2
    have hb1 : b.dropWhile isWS = u.dropWhile isWS ++ (stripL a ++ v) := by
      rw [← huv, hct]
      rw [show u ++ (c :: t) ++ v = u ++ c :: (t ++ v) by simp]
      rw [dropWhile_append_cons isWS u c (t ++ v) hc]
      simp
    have hb2 : (b.dropWhile isWS).reverse =
        v.reverse ++ (d :: (i.reverse ++ (u.dropWhile isWS).reverse)) := by
      rw [hb1, hid]
      simp [List.reverse_append]
    have hb3 : (b.dropWhile isWS).reverse.dropWhile isWS =
        v.reverse.dropWhile isWS ++ (d :: (i.reverse ++ (u.dropWhile isWS).reverse)) := by
      rw [hb2, dropWhile_append_cons isWS _ d _ hd]
    have hfin : stripL b =
        u.dropWhile isWS ++ (stripL a ++ (v.reverse.dropWhile isWS).reverse) := by
      have hb0 : stripL b = ((b.dropWhile isWS).reverse.dropWhile isWS).reverse := rfl
      rw [hb0, hb3, hid]
      simp [List.reverse_append]
    exact ⟨u.dropWhile isWS, (v.reverse.dropWhile isWS).reverse,
      by rw [List.append_assoc, ← hfin]⟩

/-- Case-insensitive containment of two strings carries over to their
stripped lowered forms, which is what the deduplicator compares. -/
theorem substr_lower_strip (A B : String)
    (h : substrB (lowerStr A).data (lowerStr B).data = true) :
    substrB (lowerStr (stripStr A)).data (lowerStr (stripStr B)).data = true := by
  rw [substrB_iff] at h ⊢
  have h2 := substrP_stripL h
  simpa [lowerStr, stripStr, stripL_map_lower] using h2

/-- The deduplication step from the empty state keeps the skill. -/
theorem dedupStep_nil (s : String) : dedupStep ([], []) s = ([s], [lowerStr s]) := by
  simp [dedupStep, substrScan, overlapScan]

/-- Unfolding of `dedupStep` when the substring loop falls through. -/
theorem dedupStep_noHit (unique seen : List String) (skill : String)
    (h1 : lowerStr skill ∉ seen)
    (h2 : substrScan (lowerStr skill) unique = .noHit) :
    dedupStep (unique, seen) skill =
      (if (overlapScan (lowerStr skill) unique unique seen).1 then
        ((overlapScan (lowerStr skill) unique unique seen).2.1,
         (overlapScan (lowerStr skill) unique unique seen).2.2)
      else
        ((overlapScan (lowerStr skill) unique unique seen).2.1 ++ [skill],
         (overlapScan (lowerStr skill) unique unique seen).2.2 ++ [lowerStr skill])) := by
  simp only [dedupStep]
  rw [if_neg h1, h2]

/-- Unfolding of `dedupStep` when the substring loop removes an existing
skill. -/
theorem dedupStep_removeHit (unique seen : List String) (skill e : String)
    (h1 : lowerStr skill ∉ seen)
    (h2 : substrScan (lowerStr skill) unique = .removeHit e) :
    dedupStep (unique, seen) skill =
      (if (overlapScan (lowerStr skill) (unique.erase e) (unique.erase e)
            (seen.erase (lowerStr e))).1 then
        ((overlapScan (lowerStr skill) (unique.erase e) (unique.erase e)
            (seen.erase (lowerStr e))).2.1,
         (overlapScan (lowerStr skill) (unique.erase e) (unique.erase e)
            (seen.erase (lowerStr e))).2.2)
      else
        ((overlapScan (lowerStr skill) (unique.erase e) (unique.erase e)
            (seen.erase (lowerStr e))).2.1 ++ [skill],
         (overlapScan (lowerStr skill) (unique.erase e) (unique.erase e)
            (seen.erase (lowerStr e))).2.2 ++ [lowerStr skill])) := by
  simp only [dedupStep]
  rw [if_neg h1, h2]

/-- Pair behaviour of `_deduplicate_skills` under proper substring
containment: the shorter (contained) first skill is removed and the longer
second one is kept. -/
theorem dedupe_pair_substr (A B : String)
    (hA : 1 < (stripStr A).data.length) (hB : 1 < (stripStr B).data.length)
    (hsub : substrB (lowerStr (stripStr A)).data (lowerStr (stripStr B)).data = true)
    (hne : lowerStr (stripStr B) ≠ lowerStr (stripStr A)) :
    deduplicate_skills [A, B] = [stripStr B] := by
  have hclean : ((([A, B].map stripStr).filter (fun s => 1 < s.data.length))) =
      [stripStr A, stripStr B] := by
    simp only [List.map]
    rw [List.filter_cons, List.filter_cons, List.filter_nil,
      if_pos (decide_eq_true hA), if_pos (decide_eq_true hB)]
  have hnotmem : lowerStr (stripStr B) ∉ [lowerStr (stripStr A)] := by
    simp [hne]
  have hscan : substrScan (lowerStr (stripStr B)) [stripStr A] = .removeHit (stripStr A) := by
    unfold substrScan
    rw [if_neg, if_pos ⟨hsub, hne⟩]
    rintro ⟨hba, -⟩
    have h1 := (substrB_iff _ _).mp hba
    have h2 := (substrB_iff _ _).mp hsub
    exact hne (string_data_eq (h1.eq_of_length h2.length_le))
  simp only [deduplicate_skills]
  rw [hclean, List.foldl_cons, List.foldl_cons, List.foldl_nil, dedupStep_nil,
    dedupStep_removeHit _ _ _ _ hnotmem hscan]
  simp [overlapScan, List.erase_cons_head]

/-- Pair behaviour of `_deduplicate_skills` under the word-overlap rule:
with no substring relation and no special case, overlap above 0.7 of the
smaller token set merges the pair keeping the longer string. -/
theorem dedupe_pair_overlap (A B : String)
    (hA : 1 < (stripStr A).data.length) (hB : 1 < (stripStr B).data.length)
    (hns1 : substrB (lowerStr (stripStr B)).data (lowerStr (stripStr A)).data = false)
    (hns2 : substrB (lowerStr (stripStr A)).data (lowerStr (stripStr B)).data = false)
    (hcicd : ¬(lowerStr (stripStr B) ∈ ciCdVariants ∧ lowerStr (stripStr A) ∈ ciCdVariants))
    (hagile : ¬(substrB "agile".data (lowerStr (stripStr B)).data = true ∧
        substrB "agile".data (lowerStr (stripStr A)).data = true))
    (hw1 : wordFinset (lowerStr (stripStr B)) ≠ ∅)
    (hw2 : wordFinset (lowerStr (stripStr A)) ≠ ∅)
    (hover : ((wordFinset (lowerStr (stripStr B)) ∩ wordFinset (lowerStr (stripStr A))).card : ℚ) /
        (min (wordFinset (lowerStr (stripStr B))).card
          (wordFinset (lowerStr (stripStr A))).card : ℚ) > 0.7) :
    deduplicate_skills [A, B] =
      if (lowerStr (stripStr B)).data.length ≤ (lowerStr (stripStr A)).data.length
      then [stripStr A] else [stripStr B] := by
  have hne : lowerStr (stripStr B) ≠ lowerStr (stripStr A) := by
    intro h
    rw [h] at hns2
    have htrue := (substrB_iff _ _).mpr (SubstrP_rfl (lowerStr (stripStr A)).data)
    rw [hns2] at htrue
    exact Bool.false_ne_true htrue
  have hclean : ((([A, B].map stripStr).filter (fun s => 1 < s.data.length))) =
      [stripStr A, stripStr B] := by
    simp only [List.map]
    rw [List.filter_cons, List.filter_cons, List.filter_nil,
      if_pos (decide_eq_true hA), if_pos (decide_eq_true hB)]
  have hnotmem : lowerStr (stripStr B) ∉ [lowerStr (stripStr A)] := by
    simp [hne]
  have hscan : substrScan (lowerStr (stripStr B)) [stripStr A] = .noHit := by
    unfold substrScan
    rw [if_neg, if_neg]
    · rfl
    · rintro ⟨hab, -⟩
      rw [hns2] at hab
      exact Bool.false_ne_true hab
    · rintro ⟨hba, -⟩
      rw [hns1] at hba
      exact Bool.false_ne_true hba
  have hoscan : overlapScan (lowerStr (stripStr B)) [stripStr A] [stripStr A]
      [lowerStr (stripStr A)] =
      if (lowerStr (stripStr B)).data.length ≤ (lowerStr (stripStr A)).data.length
      then (true, [stripStr A], [lowerStr (stripStr A)])
      else (false, [], []) := by
    simp only [overlapScan]
    rw [if_neg hcicd, if_neg hagile, if_pos ⟨hw1, hw2⟩, if_pos hover]
    by_cases hlen :
        (lowerStr (stripStr B)).data.length ≤ (lowerStr (stripStr A)).data.length
    · rw [if_pos hlen, if_pos hlen]
    · rw [if_neg hlen, if_neg hlen]
      simp [overlapScan, List.erase_cons_head]
  simp only [deduplicate_skills]
  rw [hclean, List.foldl_cons, List.foldl_cons, List.foldl_nil, dedupStep_nil,
    dedupStep_noHit _ _ _ hnotmem hscan, hoscan]
  by_cases hlen :
      (lowerStr (stripStr B)).data.length ≤ (lowerStr (stripStr A)).data.length
  · simp only [if_pos hlen]
    rfl
  · simp only [if_neg hlen]
    rfl

/-!
Claim theorems. -/

/-- C1 (amended): in enhanced mode the overall score is
`round(semantic*0.3 + skill*0.35 + experience*0.25 + education*0.10, 2)`;
in basic mode the overall score is the rounded TF-IDF lexical cosine
similarity alone — no weighted combination is applied. -/
theorem overall_score_weights :
    (∀ (c : EnhComponents) (basic : Except String BasicResult),
      (calculate_enhanced_similarity true (.ok c) basic).overall_score =
        round2 (c.semantic * 0.3 + c.skill * 0.35 + c.experience * 0.25 + c.education * 0.10)) ∧
    (∀ (resume_skills_raw job_skills_raw : List String) (cosine100 keyword_sim : ℚ),
      (calculate_similarity resume_skills_raw job_skills_raw cosine100 keyword_sim).overall_score =
        round2 cosine100) :=
  ⟨fun _ _ => rfl, fun _ _ _ _ => rfl⟩

/-- C1 counterexample: with zero lexical similarity and a perfect skill
match, the basic-mode overall score is 0 while the claimed weighted sum
`0.30*lexical + 0.35*skill + 0.25*experience + 0.10*education` is 35 even
at the education score most favourable to the claim (any education value
in [0,100] gives at least 35). -/
theorem basic_overall_not_weighted :
    (calculate_similarity ["python"] ["python"] 0 0).overall_score = 0 ∧
    (calculate_similarity ["python"] ["python"] 0 0).skill_match_score = 100 ∧
    (calculate_similarity ["python"] ["python"] 0 0).experience_match_score = 0 ∧
    (calculate_similarity ["python"] ["python"] 0 0).overall_score ≠
      0.30 * 0 + 0.35 * (calculate_similarity ["python"] ["python"] 0 0).skill_match_score +
      0.25 * (calculate_similarity ["python"] ["python"] 0 0).experience_match_score +
      0.10 * 0 := by
  have hd : deduplicate_skills ["python"] = ["python"] := by decide
  have hcard1 : ((["python"].map lowerStr).toFinset : Finset String).card = 1 := by decide
  have hskill : calculate_skill_similarity ["python"] ["python"] = 100 := by
    simp only [calculate_skill_similarity, hd]
    rw [if_neg (by decide : ¬ (["python"] = ([] : List String)))]
    rw [if_neg (by decide : ¬ ((["python"].map lowerStr).toFinset = (∅ : Finset String)))]
    rw [Finset.inter_self, Finset.union_self, hcard1]
    norm_num
  have h0 : round2 0 = 0 := by simpa using round2_int 0
  have h100 : round2 100 = 100 := by simpa using round2_int 100
  have hover : (calculate_similarity ["python"] ["python"] 0 0).overall_score = 0 := by
    simp only [calculate_similarity]
    simpa using h0
  have hsk : (calculate_similarity ["python"] ["python"] 0 0).skill_match_score = 100 := by
    simp only [calculate_similarity, hskill]
    simpa using h100
  have hexp : (calculate_similarity ["python"] ["python"] 0 0).experience_match_score = 0 := by
    simp only [calculate_similarity]
    norm_num
    simpa using h0
  refine ⟨hover, hsk, hexp, ?_⟩
  rw [hover, hsk, hexp]
  norm_num

/-- C2 (amended): for distinct strings whose stripped forms are valid
skills (length at least 2) with distinct lowercase forms, where A is a
case-insensitive substring of B, `_deduplicate_skills [A, B]` is the
one-element list holding the stripped form of the *longer* string B —
not the shorter one. -/
theorem dedupe_substr_keeps_longer (A B : String)
    (hsub : substrB (lowerStr A).data (lowerStr B).data = true)
    (hne : lowerStr (stripStr A) ≠ lowerStr (stripStr B))
    (hA : 1 < (stripStr A).data.length) (hB : 1 < (stripStr B).data.length) :
    deduplicate_skills [A, B] = [stripStr B] ∧
      (stripStr A).data.length < (stripStr B).data.length := by
  have hsub' := substr_lower_strip A B hsub
  have hP := (substrB_iff _ _).mp hsub'
  constructor
  · exact dedupe_pair_substr A B hA hB hsub' (fun h => hne h.symm)
  · have hle := hP.length_le
    simp only [lowerStr, List.length_map] at hle
    rcases Nat.lt_or_ge (stripStr A).data.length (stripStr B).data.length with hlt | hge
    · exact hlt
    · exfalso
      have heq := hP.eq_of_length (by simpa [lowerStr, List.length_map] using hge)
      exact hne (string_data_eq heq)

/-- C2 witness: "Java" is a case-insensitive substring of "JavaScript" and
the deduplicator keeps "JavaScript", the longer string. -/
theorem dedupe_substr_keeps_longer_witness :
    deduplicate_skills ["Java", "JavaScript"] = [stripStr "JavaScript"] ∧
      (stripStr "Java").data.length < (stripStr "JavaScript").data.length :=
  dedupe_substr_keeps_longer "Java" "JavaScript" (by decide) (by decide)
    (by decide) (by decide)

/-- C2 counterexample: the claim says `dedupe(["Java", "JavaScript"])`
keeps the shorter string "Java"; the code keeps "JavaScript". -/
theorem dedupe_substr_shorter_refuted :
    deduplicate_skills ["Java", "JavaScript"] = ["JavaScript"] ∧
      deduplicate_skills ["Java", "JavaScript"] ≠ ["Java"] := by
  decide

/-- C3 (amended): in the basic deduplicator the token-overlap duplicate
test divides the intersection size by the *smaller* token-set size (not
the larger), and a detected duplicate pair is resolved by keeping the
*longer* string (the first one on equal length). -/
theorem dedupe_overlap_min_keeps_longer (A B : String)
    (hA : 1 < (stripStr A).data.length) (hB : 1 < (stripStr B).data.length)
    (hns1 : substrB (lowerStr (stripStr B)).data (lowerStr (stripStr A)).data = false)
    (hns2 : substrB (lowerStr (stripStr A)).data (lowerStr (stripStr B)).data = false)
    (hcicd : ¬(lowerStr (stripStr B) ∈ ciCdVariants ∧ lowerStr (stripStr A) ∈ ciCdVariants))
    (hagile : ¬(substrB "agile".data (lowerStr (stripStr B)).data = true ∧
        substrB "agile".data (lowerStr (stripStr A)).data = true))
    (hw1 : wordFinset (lowerStr (stripStr B)) ≠ ∅)
    (hw2 : wordFinset (lowerStr (stripStr A)) ≠ ∅)
    (hover : ((wordFinset (lowerStr (stripStr B)) ∩ wordFinset (lowerStr (stripStr A))).card : ℚ) /
        (min (wordFinset (lowerStr (stripStr B))).card
          (wordFinset (lowerStr (stripStr A))).card : ℚ) > 0.7) :
    deduplicate_skills [A, B] =
      if (lowerStr (stripStr B)).data.length ≤ (lowerStr (stripStr A)).data.length
      then [stripStr A] else [stripStr B] :=
  dedupe_pair_overlap A B hA hB hns1 hns2 hcicd hagile hw1 hw2 hover

/-- C3 witness: "js react node" and "react js" overlap on both tokens of
the smaller set (ratio 1 > 0.7) and the longer string is kept. -/
theorem dedupe_overlap_min_keeps_longer_witness :
    deduplicate_skills ["js react node", "react js"] =
      if (lowerStr (stripStr "react js")).data.length ≤
          (lowerStr (stripStr "js react node")).data.length
      then [stripStr "js react node"] else [stripStr "react js"] :=
  dedupe_overlap_min_keeps_longer "js react node" "react js" (by decide) (by decide)
    (by decide) (by decide) (by decide) (by decide) (by decide) (by decide)
    (by
      have h1 : (wordFinset (lowerStr (stripStr "react js")) ∩
          wordFinset (lowerStr (stripStr "js react node"))).card = 2 := by decide
      have h2 : (wordFinset (lowerStr (stripStr "react js"))).card = 2 := by decide
      have h3 : (wordFinset (lowerStr (stripStr "js react node"))).card = 3 := by decide
      rw [h1, h2, h3]
      norm_num)

/-- C3 counterexample: for "react js node" vs "js react node extra" the
claim's rule (overlap divided by the *larger* token set, here 3/4 > 0.7)
declares a duplicate and requires the *shorter* string to be kept; the
code keeps the longer "js react node extra". -/
theorem dedupe_overlap_max_shorter_refuted :
    deduplicate_skills ["react js node", "js react node extra"] =
      ["js react node extra"] ∧
    ((wordFinset "react js node" ∩ wordFinset "js react node extra").card : ℚ) /
      (max (wordFinset "react js node").card (wordFinset "js react node extra").card : ℚ) >
      0.7 ∧
    ("react js node" : String).data.length <
      ("js react node extra" : String).data.length := by
  refine ⟨?_, ?_, by decide⟩
  · have h := dedupe_pair_overlap "react js node" "js react node extra"
      (by decide) (by decide) (by decide) (by decide) (by decide) (by decide)
      (by decide) (by decide)
      (by
        have h1 : (wordFinset (lowerStr (stripStr "js react node extra")) ∩
            wordFinset (lowerStr (stripStr "react js node"))).card = 3 := by decide
        have h2 : (wordFinset (lowerStr (stripStr "js react node extra"))).card = 4 := by decide
        have h3 : (wordFinset (lowerStr (stripStr "react js node"))).card = 3 := by decide
        rw [h1, h2, h3]
        norm_num)
    rw [h, if_neg (by decide)]
    decide
  · have h1 : (wordFinset "react js node" ∩ wordFinset "js react node extra").card = 3 := by
      decide
    have h2 : (wordFinset "react js node").card = 3 := by decide
    have h3 : (wordFinset "js react node extra").card = 4 := by decide
    rw [h1, h2, h3]
    norm_num

/-- C4: one optimizer iteration whose generation step produced a candidate
accepts it exactly when `delta > -1` (recording the strategy successful
exactly when `delta > 0`) and otherwise rejects it, recording the strategy
failed and leaving `current_resume`/`current_score` unchanged. -/
theorem optimizer_accept_reject_policy (env : OptEnv) (st : OptState) (improved : String)
    (h : env.applyStrategy st.current_resume
      (env.chooseStrategy (st.iteration + 1) st.current_resume st.current_score) =
        some improved) :
    AcceptRejectSpec env st improved := by
  unfold AcceptRejectSpec
  simp only [optStep, h]
  constructor
  · intro hgt
    rw [if_pos hgt]
    by_cases hp : env.score improved - st.current_score > 0
    · rw [if_pos hp, if_pos hp]
      exact ⟨rfl, rfl, rfl, rfl⟩
    · rw [if_neg hp, if_neg hp]
      exact ⟨rfl, rfl, by simp, rfl⟩
  · intro hle
    rw [if_neg (by linarith : ¬ env.score improved - st.current_score > -1)]
    exact ⟨rfl, rfl, rfl, rfl⟩

/-- C4 witness: the accept/reject contract at a concrete environment where
the generated text improves the score from 50 to 60. -/
theorem optimizer_accept_reject_policy_witness :
    AcceptRejectSpec envAccept stStart "resume with keywords added" :=
  optimizer_accept_reject_policy envAccept stStart "resume with keywords added" rfl

/-- C5: when the original score already meets the target, the optimizer
returns immediately with zero iterations, the unchanged resume text, the
original score and an empty attempt log. -/
theorem optimizer_early_exit (env : OptEnv) (max_iterations : ℕ) (target_score : ℚ)
    (resume_text : String) (h : target_score ≤ env.score resume_text) :
    optimize_resume env max_iterations target_score resume_text =
      { optimized_resume := resume_text, final_score := env.score resume_text
        original_score := env.score resume_text, iterations := 0, attempt_history := []
        successful_strategies := [], failed_strategies := [], target_reached := true } := by
  simp only [optimize_resume]
  rw [if_pos h]

/-- C5 witness: a run starting at score 90 against target 85 exits at once. -/
theorem optimizer_early_exit_witness :
    optimize_resume envHigh 3 85 "my resume" =
      { optimized_resume := "my resume", final_score := envHigh.score "my resume"
        original_score := envHigh.score "my resume", iterations := 0, attempt_history := []
        successful_strategies := [], failed_strategies := [], target_reached := true } :=
  optimizer_early_exit envHigh 3 85 "my resume" (by norm_num [envHigh])

/-- C6: the number of iterations reported by the optimizer never exceeds
`max_iterations`, whatever the collaborators do. -/
theorem optimizer_iterations_bounded (env : OptEnv) (max_iterations : ℕ)
    (target_score : ℚ) (resume_text : String) :
    (optimize_resume env max_iterations target_score resume_text).iterations ≤
      max_iterations := by
  simp only [optimize_resume]
  split
  · exact Nat.zero_le _
  · exact optLoop_iteration_le env max_iterations target_score max_iterations _
      (Nat.zero_le _)

/-- C7: the skill score is the 70/30 blend of required-skill match fraction
and Jaccard similarity of the deduplicated case-folded sets (each scaled to
0-100), capped at 100, and it is 0 whenever the extracted required-skill
list is empty. -/
theorem skill_score_blend (resume_skills_raw job_skills_raw : List String) :
    (job_skills_raw = [] → calculate_skill_similarity resume_skills_raw job_skills_raw = 0) ∧
    (job_skills_raw ≠ [] →
      calculate_skill_similarity resume_skills_raw job_skills_raw =
        min (0.7 * (((dedupSet resume_skills_raw ∩ dedupSet job_skills_raw).card : ℚ) /
                ((dedupSet job_skills_raw).card : ℚ) * 100) +
             0.3 * (((dedupSet resume_skills_raw ∩ dedupSet job_skills_raw).card : ℚ) /
                ((dedupSet resume_skills_raw ∪ dedupSet job_skills_raw).card : ℚ) * 100)) 100) := by
  constructor
  · intro h
    simp [calculate_skill_similarity, h]
  · intro h
    simp only [calculate_skill_similarity, if_neg h, dedupSet]
    by_cases he :
        ((deduplicate_skills job_skills_raw).map lowerStr).toFinset = (∅ : Finset String)
    · rw [if_pos he, he]
      simp
    · rw [if_neg he]
      have hcard : 0 < (((deduplicate_skills job_skills_raw).map lowerStr).toFinset).card :=
        Finset.card_pos.mpr (Finset.nonempty_iff_ne_empty.mpr he)
      have hunion : 0 < (((deduplicate_skills resume_skills_raw).map lowerStr).toFinset ∪
          ((deduplicate_skills job_skills_raw).map lowerStr).toFinset).card := by
        apply Finset.card_pos.mpr
        exact Finset.Nonempty.inr (Finset.nonempty_iff_ne_empty.mpr he)
      rw [if_pos hcard, if_pos hunion]
      congr 1
      ring

/-- C7 witness: the blend at a concrete pair with one of two required
skills matched. -/
theorem skill_score_blend_witness :
    calculate_skill_similarity ["Python", "AWS"] ["Python", "Kubernetes"] =
      min (0.7 * (((dedupSet ["Python", "AWS"] ∩ dedupSet ["Python", "Kubernetes"]).card : ℚ) /
              ((dedupSet ["Python", "Kubernetes"]).card : ℚ) * 100) +
           0.3 * (((dedupSet ["Python", "AWS"] ∩ dedupSet ["Python", "Kubernetes"]).card : ℚ) /
              ((dedupSet ["Python", "AWS"] ∪ dedupSet ["Python", "Kubernetes"]).card : ℚ) * 100)) 100 :=
  (skill_score_blend ["Python", "AWS"] ["Python", "Kubernetes"]).2 (by decide)

/-- C8 (amended): any exception in the enhanced path still yields a result;
when the basic fallback computation succeeds the result carries
`method = "basic_tfidf"` and the basic overall score, but when the fallback
itself raises, the returned result has `success = false`,
`overall_score = 0` and no `method` field at all. -/
theorem enhanced_fallback_result (e : String) (basic : Except String BasicResult) :
    (∀ b, basic = .ok b →
      calculate_enhanced_similarity true (.error e) basic =
        { success := true, overall_score := b.overall_score, method := some "basic_tfidf"
          error := none, skill_score := some b.skill_match_score
          experience_score := some b.experience_match_score }) ∧
    (∀ msg, basic = .error msg →
      calculate_enhanced_similarity true (.error e) basic =
        { success := false, overall_score := 0, method := none, error := some msg
          skill_score := none, experience_score := none }) := by
  constructor
  · rintro b rfl
    rfl
  · rintro msg rfl
    rfl

/-- C8 witness: a concrete embedding failure with a succeeding fallback. -/
theorem enhanced_fallback_result_witness :
    calculate_enhanced_similarity true (.error "embedding model unreachable") (.ok basicFix) =
      { success := true, overall_score := basicFix.overall_score, method := some "basic_tfidf"
        error := none, skill_score := some basicFix.skill_match_score
        experience_score := some basicFix.experience_match_score } :=
  (enhanced_fallback_result "embedding model unreachable" (.ok basicFix)).1 basicFix rfl

/-- C8 counterexample: when the enhanced path raises and the basic fallback
computation raises too, the returned result has no `method` field, so it is
not marked `"basic_tfidf"` as the claim requires of every exceptional run. -/
theorem enhanced_fallback_method_missing :
    (calculate_enhanced_similarity true (.error "embedding model unreachable")
        (.error "Similarity calculation failed: empty vocabulary")).method ≠
      some "basic_tfidf" ∧
    (calculate_enhanced_similarity true (.error "embedding model unreachable")
        (.error "Similarity calculation failed: empty vocabulary")).success = false := by
  exact ⟨by decide, rfl⟩

/-- C9: a text whose stripped length is below 100 makes
`analyze_job_description` fail (no profile is ever returned for it), and a
profile is returned only when validation passes. -/
theorem analyze_rejects_invalid (extraction : JobExtraction) (job_text : String) :
    ((stripL job_text.data).length < 100 →
      ∀ p, analyze_job_description extraction job_text ≠ .ok p) ∧
    (∀ p, analyze_job_description extraction job_text = .ok p →
      validate_is_job_description job_text = none) := by
  constructor
  · intro h p
    have hv : validate_is_job_description job_text =
        some "Job description is too short. Please provide a complete job posting." := by
      unfold validate_is_job_description
      rw [if_pos (Or.inr h)]
    unfold analyze_job_description
    rw [hv]
    simp
  · intro p h
    unfold analyze_job_description at h
    cases hv : validate_is_job_description job_text with
    | some err => rw [hv] at h; simp at h
    | none => rfl

/-- C9 witness: `"short text"` (10 characters) is rejected and yields no
profile. -/
theorem analyze_rejects_invalid_witness :
    analyze_job_description extractionFix "short text" ≠
      .ok ⟨["python"], "Senior", "Engineer", "Acme", [], [], "short text"⟩ :=
  (analyze_rejects_invalid extractionFix "short text").1 (by decide)
    ⟨["python"], "Senior", "Engineer", "Acme", [], [], "short text"⟩

/-- C10: whenever the raw resume-skill list contains at least two valid
entries, the deduplicated list actually fed into skill matching is the
one-element list holding only the last valid entry — all earlier skills
are dropped by the dedented duplicate-detection loop. -/
theorem skill_match_last_entry_only (raw : List String) (v : String)
    (hlast : (raw.filter (fun s => decide (2 ≤ (stripL s.data).length))).getLast? = some v)
    (_hlen : 2 ≤ (raw.filter (fun s => decide (2 ≤ (stripL s.data).length))).length) :
    resumeDedupBuggy raw = some ([stripStr v], [lowerStr (stripStr v)]) := by
  unfold resumeDedupBuggy lastValidState
  rw [foldl_last (fun s => 2 ≤ (stripL s.data).length)
    (fun s => (stripStr s, lowerStr (stripStr s))) raw none]
  rw [hlast]
  rfl

/-- C10 witness: of three valid skills, only `"Docker"` (the last) survives. -/
theorem skill_match_last_entry_only_witness :
    resumeDedupBuggy ["Python", "Java", "Docker"] =
      some ([stripStr "Docker"], [lowerStr (stripStr "Docker")]) :=
  skill_match_last_entry_only ["Python", "Java", "Docker"] "Docker" (by decide) (by decide)
